import Mathlib

/-!
# Verification of the PTT commenter analyzer (Tauri backend)

A shallow embedding of the Rust sources in `src-tauri/src` (`main.rs`,
`scraper.rs`, `config.rs`, `error.rs`) together with theorems about the
behaviour described in the specification.

Modelling conventions:
* HTML documents are modelled as structures holding the texts of the nodes
  matched by each fixed CSS selector the code uses (the selector engine is an
  external capability, per the spec).
* `HashMap<String, u32>` is modelled as an association list with
  insert-overwrite semantics (`insertKV`); iteration order of the model is the
  list order.
* `f64` threshold arithmetic in the highlight partition is modelled over `ℚ`;
  every value the code manipulates there (u32 counts, small decimal
  thresholds) is exactly representable, so `ℚ` is faithful for these claims
  (only `inf`/`nan` literals and decimal-rounding corner cases are out of
  scope of the model).
* `futures::stream::buffer_unordered` produces results in an unconstrained
  completion order; this is modelled by an explicit `order : List Nat`
  parameter ranging over permutations of the task indices.
-/

namespace PTT

/-! ## Association-list model of `HashMap<String, u32>` -/

/-- Lookup with default 0, modelling `map.get(&k).unwrap_or(&0)`. -/
def lookupD (m : List (String × Nat)) (k : String) : Nat :=
  match m.find? (fun p => p.1 == k) with
  | some p => p.2
  | none => 0

/-- Insert-overwrite, modelling `HashMap::insert` (later values for the same
key replace earlier ones). -/
def insertKV : List (String × Nat) → String → Nat → List (String × Nat)
  | [], k, v => [(k, v)]
  | p :: rest, k, v => if p.1 == k then (k, v) :: rest else p :: insertKV rest k v

/-- Modelling `*map.entry(k).or_insert(0) += 1`. -/
def bump (m : List (String × Nat)) (k : String) : List (String × Nat) :=
  insertKV m k (lookupD m k + 1)

/-! ## Character-list string helpers -/

/-- `startsWithL s pat`: the char list `s` begins with `pat`. -/
def startsWithL : List Char → List Char → Bool
  | _, [] => true
  | [], _ :: _ => false
  | c :: cs, p :: ps => c == p && startsWithL cs ps

/-- `hasSubstr pat s`: `pat` occurs as a contiguous substring of `s`;
models Rust `str::contains` on valid UTF-8. -/
def hasSubstr (pat : List Char) : List Char → Bool
  | [] => startsWithL [] pat
  | c :: cs => startsWithL (c :: cs) pat || hasSubstr pat cs

/-- Model of Rust `str::trim`: drop whitespace from both ends. -/
def trimL (s : String) : String :=
  String.mk (((s.toList.dropWhile Char.isWhitespace).reverse.dropWhile
    Char.isWhitespace).reverse)

/-- Model of Rust `str::is_empty`. -/
def emptyS (s : String) : Bool := s.toList.isEmpty

/-- Model of Rust `str::contains(char)`. -/
def containsC (s : String) (c : Char) : Bool := s.toList.contains c

/-- Model of Rust `str::ends_with('%')`. -/
def endsWithPct (s : String) : Bool :=
  match s.toList.reverse with
  | [] => false
  | c :: _ => c == '%'

/-- Model of Rust `str::split(',')`: the empty string yields one empty
field; every separator starts a new (possibly empty) field. -/
def splitComma : List Char → List (List Char)
  | [] => [[]]
  | c :: cs =>
    if c == ',' then [] :: splitComma cs
    else
      match splitComma cs with
      | [] => [[c]]
      | h :: t => (c :: h) :: t

/-- Value of a decimal digit string. -/
def digitsToNat (cs : List Char) : Nat :=
  cs.foldl (fun n c => n * 10 + (c.toNat - 48)) 0

/-- Model of Rust `str::parse::<u32>`: optional `+` sign, one or more digits,
value within `u32` range. -/
def parseU32 (s : String) : Option Nat :=
  let cs := s.toList
  let cs := match cs with
    | '+' :: rest => rest
    | other => other
  if cs.isEmpty || !cs.all Char.isDigit then none
  else
    let v := digitsToNat cs
    if v < 2 ^ 32 then some v else none

/-! ## Model of `str::parse::<f64>` over `ℚ`

Faithful on finite decimal/exponent literals (which are all the highlight
feature meets); `inf`/`nan` words and binary-rounding effects are outside the
model. -/

/-- Parse the optional exponent suffix (`e`/`E`, optional sign, digits) and
apply it; the whole remainder must be consumed. -/
def applyExp (q : ℚ) : List Char → Option ℚ
  | [] => some q
  | e :: r =>
    if e == 'e' || e == 'E' then
      let sgnAndRest : Bool × List Char :=
        match r with
        | '-' :: t => (true, t)
        | '+' :: t => (false, t)
        | t => (false, t)
      let neg := sgnAndRest.1
      let ds := sgnAndRest.2
      if ds.isEmpty || !ds.all Char.isDigit then none
      else
        let k := digitsToNat ds
        some (if neg then q / 10 ^ k else q * 10 ^ k)
    else none

/-- Model of Rust `str::parse::<f64>` (finite decimal fragment): optional
sign, digits with optional fractional part (at least one digit overall),
optional exponent. -/
def parseNumF (s : String) : Option ℚ :=
  let cs := s.toList
  let sgnAndRest : Bool × List Char :=
    match cs with
    | '-' :: t => (true, t)
    | '+' :: t => (false, t)
    | t => (false, t)
  let neg := sgnAndRest.1
  let body := sgnAndRest.2
  let ip := body.takeWhile Char.isDigit
  let r1 := body.dropWhile Char.isDigit
  let mant : Option (ℚ × List Char) :=
    match r1 with
    | '.' :: r2 =>
      let fp := r2.takeWhile Char.isDigit
      let r3 := r2.dropWhile Char.isDigit
      if ip.isEmpty && fp.isEmpty then none
      else some ((digitsToNat ip : ℚ) + (digitsToNat fp : ℚ) / 10 ^ fp.length, r3)
    | _ => if ip.isEmpty then none else some ((digitsToNat ip : ℚ), r1)
  match mant with
  | none => none
  | some (q, rest) => (applyExp q rest).map (fun v => if neg then -v else v)

/-! ## Article document model and `scrape_ptt_article` (scraper.rs) -/

/-- One `.push` element of the article page: texts of its first `.push-tag`,
`.push-userid` and `.push-content` descendants (absent when the selector
matches nothing). -/
structure PushEntry where
  tagText : Option String
  userText : Option String
  contentText : Option String
  deriving DecidableEq

/-- An article page as seen through the fixed selectors of
`scrape_ptt_article`.  `docTitle` is the generic `<title>` node text; the
Rust code never consults it for articles, but the specification's fallback
rule mentions it, so the model carries it. -/
structure ArticleDoc where
  metaValues : List String
  rightMetaValues : List String
  docTitle : Option String
  pushEntries : List PushEntry
  deriving DecidableEq

/-- Title extraction of `scrape_ptt_article` (scraper.rs lines 59-64):
3rd `.article-metaline .article-meta-value` text, trimmed, non-empty,
otherwise the literal placeholder. -/
def extractTitle (doc : ArticleDoc) : String :=
  match ((doc.metaValues.get? 2).map trimL).filter (fun s => !emptyS s) with
  | some t => t
  | none => "未知標題"

/-- The title rule as the specification words it (§4.2 rule 1): same 3rd
metadata node, but falling back to the generic title node before the
placeholder. -/
def extractTitleClaimed (doc : ArticleDoc) : String :=
  match ((doc.metaValues.get? 2).map trimL).filter (fun s => !emptyS s) with
  | some t => t
  | none =>
    match doc.docTitle with
    | some t => trimL t
    | none => "未知標題"

/-- Board extraction (scraper.rs lines 66-70). -/
def extractBoard (doc : ArticleDoc) : String :=
  match doc.rightMetaValues.head? with
  | some t => trimL t
  | none => "Unknown"

/-- Comment-type classification by substring of the tag text
(scraper.rs lines 101-109). -/
def classifyTag (tag : String) : String :=
  if containsC tag '推' then "push"
  else if containsC tag '噓' then "hate"
  else if containsC tag '→' then "arrow"
  else "unknown"

/-- Strip the leading run of colons and whitespace from a comment
(scraper.rs lines 97-99). -/
def cleanContent (s : String) : String :=
  String.mk (s.toList.dropWhile (fun c => c == ':' || c.isWhitespace))

/-- The filter of scraper.rs lines 112-113: a single filter-type string with
the sentinel `"all"`, and at most one optional keyword. -/
def entryAccepted (filterType : String) (keyword : Option String)
    (ctype content : String) : Bool :=
  (filterType == "all" || filterType == ctype) &&
  (match keyword with
   | none => true
   | some k => hasSubstr k.toList content.toList)

/-- One iteration of the comment loop (scraper.rs lines 74-118). -/
def stepEntry (filterType : String) (keyword : Option String)
    (m : List (String × Nat)) (e : PushEntry) : List (String × Nat) :=
  let tag := e.tagText.getD ""
  let user := (e.userText.map trimL).getD ""
  let contentRaw := e.contentText.getD ""
  if emptyS user || emptyS contentRaw then m
  else
    let content := cleanContent contentRaw
    let ctype := classifyTag tag
    if entryAccepted filterType keyword ctype content then bump m user else m

/-- The whole comment-counting loop. -/
def extractCounts (filterType : String) (keyword : Option String)
    (entries : List PushEntry) : List (String × Nat) :=
  entries.foldl (stepEntry filterType keyword) []

/-- Result of `scrape_ptt_article`. -/
structure PttArticleData where
  userCommentCounts : List (String × Nat)
  board : String
  title : String
  deriving DecidableEq

/-- `scrape_ptt_article` after a successful fetch, as a function of the
parsed document. -/
def scrapePttArticle (doc : ArticleDoc) (filterType : String)
    (keyword : Option String) : PttArticleData :=
  { userCommentCounts := extractCounts filterType keyword doc.pushEntries
    board := extractBoard doc
    title := extractTitle doc }

/-! ## Profile document model and `scrape_ptt_web` (scraper.rs) -/

/-- One `.e7-wrapper-board .e7-box` element: texts of its first `a`
descendant and its first `span.ml-2` descendant. -/
structure BoardEntry where
  anchorText : Option String
  countText : Option String
  deriving DecidableEq

/-- A pttweb.cc profile page as seen through the fixed selectors of
`scrape_ptt_web`: first `<title>` text, first `div.headline` text, and the
board entries. -/
structure ProfileDoc where
  titleText : Option String
  headlineText : Option String
  boardEntries : List BoardEntry
  deriving DecidableEq

/-- The error type of error.rs.  `transport` stands for
`Error::Request` (reqwest failures), `parseFail` for `Error::PttWebParse`,
`userNotFound` for `Error::PttWebUserNotFound`. -/
inductive ScrapeErr where
  | userNotFound (userId : String)
  | parseFail (msg : String)
  | transport (msg : String)
  deriving DecidableEq

/-- Result of `scrape_ptt_web`. -/
structure PttWebData where
  boardComments : List (String × Nat)
  totalComments : Nat
  deriving DecidableEq

/-- Leftmost match of the regex `, 共(\d+)則` (scraper.rs line 14): the
first position where the literal `", 共"` is followed by a non-empty
maximal digit run immediately followed by `"則"`; returns the captured
digits. -/
def totalRe : List Char → Option (List Char)
  | [] => none
  | c :: rest =>
    if startsWithL (c :: rest) [',', ' ', '共'] then
      let after := (c :: rest).drop 3
      let ds := after.takeWhile Char.isDigit
      let r2 := after.dropWhile Char.isDigit
      if !ds.isEmpty && startsWithL r2 ['則'] then some ds
      else totalRe rest
    else totalRe rest

/-- The user-not-found test (scraper.rs lines 138-147): a `<title>` node
exists and its text contains the literal marker. -/
def titleSaysNotFound (doc : ProfileDoc) : Bool :=
  match doc.titleText with
  | some t => hasSubstr "沒有此作者".toList t.toList
  | none => false

/-- Total-comments extraction (scraper.rs lines 150-165): headline text,
regex capture, `parse::<u32>().ok()`. -/
def extractTotal (doc : ProfileDoc) : Option Nat :=
  (doc.headlineText.bind (fun t => totalRe t.toList)).bind
    (fun ds => if digitsToNat ds < 2 ^ 32 then some (digitsToNat ds) else none)

/-- One board box (scraper.rs lines 174-199): first anchor text, trimmed,
skipped when empty; first count-span text, trimmed, parsed as `u32`,
skipped when absent or unparseable. -/
def boardEntryKV (e : BoardEntry) : Option (String × Nat) :=
  match e.anchorText with
  | none => none
  | some nm0 =>
    let nm := trimL nm0
    if emptyS nm then none
    else
      match e.countText with
      | none => none
      | some ct => (parseU32 (trimL ct)).map (fun c => (nm, c))

/-- `filter_map(..).collect::<HashMap<_,_>>()` over the board boxes
(scraper.rs lines 172-200).  Note: no `targetBoards` filtering occurs. -/
def extractBoardComments (entries : List BoardEntry) : List (String × Nat) :=
  (entries.filterMap boardEntryKV).foldl (fun m p => insertKV m p.1 p.2) []

/-- `scrape_ptt_web` after a successful fetch, as a function of the parsed
document (scraper.rs lines 129-207).  The function of the snapshot takes no
`targetBoards` parameter and performs no board filtering. -/
def scrapePttWeb (doc : ProfileDoc) (userId : String) :
    Except ScrapeErr PttWebData :=
  if titleSaysNotFound doc then
    Except.error (ScrapeErr.userNotFound userId)
  else
    match extractTotal doc with
    | none =>
      Except.error (ScrapeErr.parseFail
        ("無法從 headline 解析 " ++ userId ++ " 的總留言數"))
    | some total =>
      Except.ok { boardComments := extractBoardComments doc.boardEntries
                  totalComments := total }

/-! ## Configuration (config.rs) and report structures (main.rs) -/

/-- config.rs `SortingConfig`. -/
structure SortingConfig where
  sortBy : String
  order : String
  deriving DecidableEq

/-- config.rs `AppConfig`. -/
structure AppConfig where
  boards : List String
  sorting : SortingConfig
  deriving DecidableEq

/-- main.rs `UserReportData`. -/
structure UserReportData where
  user : String
  articleComments : Nat
  boardComments : List (String × Nat)
  totalComments : Nat
  deriving DecidableEq

/-- main.rs `ProgressPayload`. -/
structure ProgressPayload where
  current : Nat
  total : Nat
  userId : String
  deriving DecidableEq

/-- main.rs `ReportMetadata`. -/
structure ReportMetadata where
  title : String
  url : String
  board : String
  filterTypes : List String
  keywords : Option (List String)
  highlightCondition : Option String
  deriving DecidableEq

/-- main.rs `AnalysisResult`. -/
structure AnalysisResult where
  metadata : ReportMetadata
  highlightedData : List UserReportData
  normalData : List UserReportData
  deriving DecidableEq

/-! ## Concurrent enrichment orchestrator (main.rs lines 111-155) -/

/-- The per-user error handling of main.rs lines 127-134: success keeps the
data, `PttWebUserNotFound` and every other error alike resolve to `none`. -/
def resolveFetch (res : Except ScrapeErr PttWebData) : Option PttWebData :=
  match res with
  | Except.ok d => some d
  | Except.error (ScrapeErr.userNotFound _) => none
  | Except.error _ => none

/-- Building one `UserReportData` (main.rs lines 141-155):
`article_comments` from the counts map, enrichment fields zero-valued when
the fetch resolved to `none`. -/
def mkReport (counts : List (String × Nat)) (u : String)
    (d : Option PttWebData) : UserReportData :=
  match d with
  | some data =>
    { user := u, articleComments := lookupD counts u
      boardComments := data.boardComments, totalComments := data.totalComments }
  | none =>
    { user := u, articleComments := lookupD counts u
      boardComments := [], totalComments := 0 }

/-- The enrichment fan-out.  `fetch u tb` is the outcome of
`scrape_ptt_web(&u, &tb)` for user `u` (transport errors included);
`order` is the completion order of `buffer_unordered` — an arbitrary
permutation of the task indices. -/
def enrichReports (counts : List (String × Nat)) (targetBoards : List String)
    (fetch : String → List String → Except ScrapeErr PttWebData)
    (order : List Nat) : List UserReportData :=
  let users := counts.map Prod.fst
  (order.filterMap (fun i => users.get? i)).map
    (fun u => mkReport counts u (resolveFetch (fetch u targetBoards)))

/-- Progress events (main.rs lines 120-125): one per user, emitted at
dispatch, `current = i + 1` over the submission enumeration. -/
def progressEvents (counts : List (String × Nat)) : List ProgressPayload :=
  (counts.map Prod.fst).enum.map
    (fun p => { current := p.1 + 1, total := counts.length, userId := p.2 })

/-! ## Report sorting (main.rs lines 157-182) -/

/-- The sort key selected by `config.sorting.sort_by` (main.rs lines
162-175): the reserved keys select `article_comments` resp.
`total_comments`; any other string is a board name looked up with default
0. -/
def sortKey (sorting : SortingConfig) (r : UserReportData) : Nat :=
  match sorting.sortBy with
  | "本文留言數" => r.articleComments
  | "生涯總留言數" => r.totalComments
  | boardName => lookupD r.boardComments boardName

/-- The comparator of main.rs lines 158-182 as a `le` relation:
`reportLE a b` holds when the comparator puts `a` before or level with `b`
(`val_b.cmp(&val_a)` for `"desc"`, `val_a.cmp(&val_b)` otherwise). -/
def reportLE (sorting : SortingConfig) (a b : UserReportData) : Bool :=
  if sorting.order == "desc" then
    decide (sortKey sorting b ≤ sortKey sorting a)
  else
    decide (sortKey sorting a ≤ sortKey sorting b)

/-- `report_data.sort_by(comparator)`.  Rust's `sort_by` is a stable sort;
a stable sort for a total preorder is unique, so `List.mergeSort` is a
faithful model. -/
def sortReports (sorting : SortingConfig) (l : List UserReportData) :
    List UserReportData :=
  l.mergeSort (reportLE sorting)

/-! ## Highlight partition (main.rs lines 184-226) -/

/-- Model of `trim_end_matches('%')`: remove every trailing `%`. -/
def stripPercent (s : String) : String :=
  String.mk ((s.toList.reverse.dropWhile (fun c => c == '%')).reverse)

/-- The operator dispatch of main.rs lines 209-216 over the modelled `f64`
values (`==` uses the `1e-9` tolerance; unknown operators yield `false`). -/
def opCompare (op : String) (v t : ℚ) : Bool :=
  match op with
  | "<" => decide (v < t)
  | "<=" => decide (v ≤ t)
  | ">" => decide (t < v)
  | ">=" => decide (t ≤ v)
  | "==" => decide (|v - t| < 1 / 1000000000)
  | _ => false

/-- The per-report highlight predicate (main.rs lines 200-216). -/
def highlightTest (hlBoard op : String) (isPct : Bool) (threshold : ℚ)
    (r : UserReportData) : Bool :=
  let bc : ℚ := (lookupD r.boardComments hlBoard : Nat)
  let tc : ℚ := (r.totalComments : Nat)
  let v := if isPct && decide (0 < tc) then bc / tc * 100 else bc
  opCompare op v threshold

/-- The value the specification says is compared (§4.5): the candidate
count, or the percentage only when the condition is a percentage one and
`totalComments > 0`. -/
def valueComparedSpec (hlBoard : String) (isPct : Bool)
    (r : UserReportData) : ℚ :=
  let candidate : ℚ := (lookupD r.boardComments hlBoard : Nat)
  if isPct ∧ 0 < r.totalComments then
    candidate / (r.totalComments : ℚ) * 100
  else candidate

/-- The highlight partition (main.rs lines 184-226): absent or empty
condition, wrong field count, or a threshold that fails to parse (via
`unwrap_or(-1.0)` and the `threshold >= 0.0` gate) all fall back to
`(vec![], report_data)`. -/
def partitionReports (reports : List UserReportData) (cond : Option String) :
    List UserReportData × List UserReportData :=
  match cond with
  | none => ([], reports)
  | some condStr =>
    if emptyS condStr then ([], reports)
    else
      let parts := (splitComma condStr.toList).map (fun cs => String.mk cs)
      if parts.length == 3 then
        let hlBoard := trimL (parts.getD 0 "")
        let operator := trimL (parts.getD 1 "")
        let valueStr := trimL (parts.getD 2 "")
        let isPct := endsWithPct valueStr
        let threshold := (parseNumF (stripPercent valueStr)).getD (-1)
        if decide ((0 : ℚ) ≤ threshold) then
          reports.partition (highlightTest hlBoard operator isPct threshold)
        else ([], reports)
      else ([], reports)

/-! ## The analyze command (main.rs lines 72-242, after the article fetch) -/

/-- Everything `analyze_ptt_article` produces besides its return value:
the emitted progress payloads and the users actually fetched (in completion
order), so that "no fetches, no events" is statable. -/
structure AnalysisOutcome where
  result : AnalysisResult
  progress : List ProgressPayload
  fetched : List String
  deriving DecidableEq

/-- The `target_boards` adjustment of main.rs lines 106-109. -/
def adjustedBoards (cfg : AppConfig) (board : String) : List String :=
  if cfg.boards.contains board then cfg.boards else cfg.boards ++ [board]

/-- `analyze_ptt_article` from the point where the article data is
available (main.rs lines 88-241): early return on an empty counts map,
otherwise enrichment, sorting and partitioning. -/
def analyze (article : PttArticleData) (url : String)
    (filterTypes : List String) (keywords : Option (List String))
    (highlightCondition : Option String) (cfg : AppConfig)
    (fetch : String → List String → Except ScrapeErr PttWebData)
    (order : List Nat) : AnalysisOutcome :=
  let metadata : ReportMetadata :=
    { title := article.title, url := url, board := article.board
      filterTypes := filterTypes, keywords := keywords
      highlightCondition := highlightCondition }
  if article.userCommentCounts.isEmpty then
    { result := { metadata := metadata, highlightedData := [], normalData := [] }
      progress := [], fetched := [] }
  else
    let targetBoards := adjustedBoards cfg article.board
    let users := article.userCommentCounts.map Prod.fst
    let reports := enrichReports article.userCommentCounts targetBoards fetch order
    let sorted := sortReports cfg.sorting reports
    let hl := partitionReports sorted highlightCondition
    { result := { metadata := metadata, highlightedData := hl.1, normalData := hl.2 }
      progress := progressEvents article.userCommentCounts
      fetched := order.filterMap (fun i => users.get? i) }

/-- A concrete fetch oracle for closed instances: `alice` is unknown to the
profile site, everyone else has 50 total comments and 5 in board `X`. -/
def demoFetch : String → List String → Except ScrapeErr PttWebData := fun u _ =>
  if u == "alice" then Except.error (ScrapeErr.userNotFound "alice")
  else Except.ok { boardComments := [("X", 5)], totalComments := 50 }

/-! ## Helper lemmas -/

theorem mkReport_user (counts : List (String × Nat)) (u : String)
    (d : Option PttWebData) : (mkReport counts u d).user = u := by
  cases d <;> rfl

theorem mkReport_article (counts : List (String × Nat)) (u : String)
    (d : Option PttWebData) :
    (mkReport counts u d).articleComments = lookupD counts u := by
  cases d <;> rfl

theorem resolveFetch_error (e : ScrapeErr) :
    resolveFetch (Except.error e) = none := by
  cases e <;> rfl

theorem range_filterMap_getQ (l : List α) :
    (List.range l.length).filterMap (fun i => l.get? i) = l := by
  induction l with
  | nil => rfl
  | cons a t ih =>
    rw [List.length_cons, List.range_succ_eq_map, List.filterMap_cons]
    simp only [List.get?_cons_zero, List.filterMap_map]
    rw [show ((fun i => (a :: t).get? i) ∘ Nat.succ) = fun i => t.get? i from rfl]
    rw [ih]

/-! ## Claim theorems -/

/-- C10: if article extraction succeeds with an empty `commentCounts` map,
the analyze operation returns success immediately with the full metadata and
both `highlightedData` and `normalData` empty, performing no profile fetches
and emitting no progress events. -/
theorem analyze_empty_counts_early_return
    (article : PttArticleData) (url : String) (filterTypes : List String)
    (keywords : Option (List String)) (highlightCondition : Option String)
    (cfg : AppConfig)
    (fetch : String → List String → Except ScrapeErr PttWebData)
    (order : List Nat) (h : article.userCommentCounts = []) :
    analyze article url filterTypes keywords highlightCondition cfg fetch order =
      { result :=
          { metadata :=
              { title := article.title, url := url, board := article.board
                filterTypes := filterTypes, keywords := keywords
                highlightCondition := highlightCondition }
            highlightedData := [], normalData := [] }
        progress := [], fetched := [] } := by
  simp [analyze, h]

theorem analyze_empty_counts_early_return_witness :
    analyze { userCommentCounts := [], board := "Gossiping", title := "T" }
        "http://x" ["push"] (some ["k"]) (some "B,>,5")
        { boards := ["B"], sorting := { sortBy := "本文留言數", order := "desc" } }
        (fun _ _ => Except.error (ScrapeErr.transport "down")) [] =
      { result :=
          { metadata :=
              { title := "T", url := "http://x", board := "Gossiping"
                filterTypes := ["push"], keywords := some ["k"]
                highlightCondition := some "B,>,5" }
            highlightedData := [], normalData := [] }
        progress := [], fetched := [] } :=
  analyze_empty_counts_early_return _ _ _ _ _ _ _ _ rfl

/-- C2 (code-bug evidence): the `scrape_ptt_web` of the snapshot takes no
`targetBoards` argument at all and records every board entry with a
non-empty trimmed name and a parseable count — here `C_Chat` is recorded
although no caller-supplied board set could contain it, contradicting the
claim that `boardComments` keys are always members of `targetBoards`.
(`main.rs` calls `scrape_ptt_web(&user, &target_boards)` with two
arguments, so the snapshot's sources do not even typecheck together; the
spec matches the caller.) -/
theorem scrapePttWeb_ignores_target_boards :
    scrapePttWeb
        { titleText := some "ok", headlineText := some "xx, 共7則"
          boardEntries := [{ anchorText := some " C_Chat ", countText := some "5" }] }
        "u"
      = Except.ok { boardComments := [("C_Chat", 5)], totalComments := 7 } := rfl

/-- C3 (code-bug evidence): the filter of the snapshot's
`scrape_ptt_article` is a single filter-type string with the sentinel
`"all"` and at most one optional keyword.  An empty filter-type string
(the nearest rendering of an empty `filterTypes` set) matches nothing, the
sentinel `"all"` matches everything, and a single keyword must itself occur
(there is no OR-of-keywords list) — all contradicting the claimed
empty-set/OR-list semantics. -/
theorem extractCounts_single_filter_sentinel :
    extractCounts "" none
        [{ tagText := some "推", userText := some "alice", contentText := some ": hello" }]
      = []
    ∧ extractCounts "all" none
        [{ tagText := some "推", userText := some "alice", contentText := some ": hello" }]
      = [("alice", 1)]
    ∧ extractCounts "all" (some "B")
        [{ tagText := some "推", userText := some "alice", contentText := some ": AAA" }]
      = [] :=
  ⟨rfl, rfl, rfl⟩

/-- C4 (counterexample): on a document with no metadata values but a
generic title node `"Hello"`, the specification's rule produces `"Hello"`
while the code goes straight to the placeholder — the code has no
generic-title fallback. -/
theorem extractTitle_fallback_cex :
    extractTitleClaimed
        { metaValues := [], rightMetaValues := [], docTitle := some "Hello"
          pushEntries := [] } = "Hello"
    ∧ extractTitle
        { metaValues := [], rightMetaValues := [], docTitle := some "Hello"
          pushEntries := [] } = "未知標題" :=
  ⟨rfl, rfl⟩

/-- C4 (amended): the extracted title equals the trimmed text of the 3rd
article-metadata-value node when that text is non-empty; otherwise it is
the literal placeholder directly — the generic title node is never
consulted (the result is independent of it). -/
theorem extractTitle_no_generic_fallback
    (mv rm : List String) (dt dt' : Option String) (pe pe' : List PushEntry) :
    extractTitle { metaValues := mv, rightMetaValues := rm, docTitle := dt, pushEntries := pe }
      = extractTitle { metaValues := mv, rightMetaValues := rm, docTitle := dt', pushEntries := pe' }
    ∧ (∀ s, (mv[2]?).map trimL = some s → emptyS s = false →
        extractTitle { metaValues := mv, rightMetaValues := rm, docTitle := dt, pushEntries := pe } = s)
    ∧ (((mv[2]?).map trimL).filter (fun s => !emptyS s) = none →
        extractTitle { metaValues := mv, rightMetaValues := rm, docTitle := dt, pushEntries := pe }
          = "未知標題") := by
  refine ⟨rfl, ?_, ?_⟩
  · intro s hs hemp
    simp [extractTitle, hs, Option.filter, hemp]
  · intro h
    simp [extractTitle, h]

theorem extractTitle_no_generic_fallback_witness :
    extractTitle
        { metaValues := ["a", "b", " T "], rightMetaValues := []
          docTitle := some "X", pushEntries := [] } = "T" :=
  (extractTitle_no_generic_fallback ["a", "b", " T "] [] (some "X") none [] []).2.1
    "T" rfl rfl

/-- C6: a partition condition that is absent, empty, does not split into
exactly 3 comma-separated fields, or whose value field fails to parse,
returns `(empty, input list unchanged)` without surfacing any error. -/
theorem partition_malformed_condition_fallback
    (reports : List UserReportData) (cond : Option String)
    (h : cond = none ∨ cond = some "" ∨
      ∃ s, cond = some s ∧ emptyS s = false ∧
        ((splitComma s.toList).length ≠ 3 ∨
          parseNumF (stripPercent (trimL
            (((splitComma s.toList).map (fun cs => String.mk cs)).getD 2 ""))) = none)) :
    partitionReports reports cond = ([], reports) := by
  rcases h with h | h | ⟨s, hc, hne, hbad⟩
  · rw [h]; rfl
  · rw [h]; rfl
  · subst hc
    simp only [partitionReports]
    rw [if_neg (by simp [hne])]
    rcases hbad with hlen | hparse
    · rw [if_neg (by simp only [List.length_map, beq_iff_eq]; exact hlen)]
    · by_cases hlen3 : ((splitComma s.toList).map (fun cs => String.mk cs)).length = 3
      · rw [if_pos (by simp only [beq_iff_eq]; exact hlen3)]
        rw [hparse]
        norm_num
      · rw [if_neg (by simp only [beq_iff_eq]; exact hlen3)]

theorem partition_malformed_condition_fallback_witness :
    partitionReports
        [{ user := "u", articleComments := 2, boardComments := [("B", 4)]
           totalComments := 9 }] (some "B,>,")
      = ([], [{ user := "u", articleComments := 2, boardComments := [("B", 4)]
                totalComments := 9 }]) :=
  partition_malformed_condition_fallback _ _
    (Or.inr (Or.inr ⟨"B,>,", rfl, rfl, Or.inr (by decide)⟩))

theorem highlightTest_eq_spec (b op : String) (isPct : Bool) (t : ℚ)
    (r : UserReportData) :
    highlightTest b op isPct t r = opCompare op (valueComparedSpec b isPct r) t := by
  unfold highlightTest valueComparedSpec
  by_cases hp : isPct
  · by_cases h0 : 0 < r.totalComments
    · have hq : (0 : ℚ) < (r.totalComments : ℚ) := by exact_mod_cast h0
      simp [hp, h0, hq]
    · have hq : ¬ (0 : ℚ) < (r.totalComments : ℚ) := by exact_mod_cast h0
      simp [hp, h0, hq]
  · simp [hp]

/-- C7: for a well-formed condition (3 fields, non-negative parsed
threshold), the partition predicate compares the operator against exactly
the value the specification describes: `boardComments[board] or 0`, turned
into a percentage of `totalComments` only when the value field ends in `%`
AND `totalComments > 0`; in every other case (including a percentage
condition with `totalComments = 0`) the raw candidate is compared. -/
theorem partition_condition_compares_spec_value
    (reports : List UserReportData) (s b0 o0 v0 : String) (t : ℚ)
    (hsplit : (splitComma s.toList).map (fun cs => String.mk cs) = [b0, o0, v0])
    (hne : emptyS s = false)
    (ht : parseNumF (stripPercent (trimL v0)) = some t)
    (htnn : 0 ≤ t) :
    partitionReports reports (some s) =
      reports.partition (fun r =>
        opCompare (trimL o0) (valueComparedSpec (trimL b0) (endsWithPct (trimL v0)) r) t) := by
  simp only [partitionReports]
  rw [if_neg (by simp [hne])]
  rw [hsplit]
  rw [if_pos (by simp)]
  simp only [List.getD_cons_zero, List.getD_cons_succ]
  simp only [ht, Option.getD_some]
  rw [if_pos (by simpa using htnn)]
  congr 1
  funext r
  exact highlightTest_eq_spec (trimL b0) (trimL o0) (endsWithPct (trimL v0)) t r

theorem partition_condition_compares_spec_value_witness :
    partitionReports
        [{ user := "u", articleComments := 1, boardComments := [("B", 10)]
           totalComments := 0 }] (some "B,>,5%")
      = ([{ user := "u", articleComments := 1, boardComments := [("B", 10)]
            totalComments := 0 }], []) := by
  rw [partition_condition_compares_spec_value _ "B,>,5%" "B" ">" "5%" 5
    (by decide) rfl (by decide) (by norm_num)]
  decide

theorem extractTotal_eq_none_iff (doc : ProfileDoc) :
    extractTotal doc = none ↔
      (doc.headlineText = none ∨
        ∃ hl, doc.headlineText = some hl ∧
          (totalRe hl.toList = none ∨
            ∃ ds, totalRe hl.toList = some ds ∧ 2 ^ 32 ≤ digitsToNat ds)) := by
  unfold extractTotal
  cases hh : doc.headlineText with
  | none => simp
  | some hl =>
    cases ht : totalRe hl.toList with
    | none =>
      simp only [String.toList] at ht
      simp [ht]
    | some ds =>
      simp only [String.toList] at ht
      by_cases hov : digitsToNat ds < 2 ^ 32
      · simp [ht, hov]
      · simp [ht, hov]

/-- C5: `scrape_ptt_web` fails with `UserNotFound` exactly when the title
node's text contains the "no such author" marker (taking precedence over
parsing); otherwise it fails with `ParseFailure` exactly when the headline
is missing, the total-comments pattern does not match, or its digits do not
parse as `u32`; when neither holds it returns the profile data. -/
theorem scrapePttWeb_error_taxonomy (doc : ProfileDoc) (userId : String) :
    (scrapePttWeb doc userId = Except.error (ScrapeErr.userNotFound userId)
      ↔ titleSaysNotFound doc = true)
    ∧ (titleSaysNotFound doc = false →
        ((∃ msg, scrapePttWeb doc userId = Except.error (ScrapeErr.parseFail msg))
          ↔ (doc.headlineText = none ∨
              ∃ hl, doc.headlineText = some hl ∧
                (totalRe hl.toList = none ∨
                  ∃ ds, totalRe hl.toList = some ds ∧ 2 ^ 32 ≤ digitsToNat ds))))
    ∧ (titleSaysNotFound doc = false → ∀ total, extractTotal doc = some total →
        scrapePttWeb doc userId
          = Except.ok { boardComments := extractBoardComments doc.boardEntries
                        totalComments := total }) := by
  refine ⟨?_, ?_, ?_⟩
  · cases hnf : titleSaysNotFound doc with
    | true => simp [scrapePttWeb, hnf]
    | false =>
      simp only [scrapePttWeb, hnf, Bool.false_eq_true, if_false]
      constructor
      · intro h
        cases hext : extractTotal doc <;> rw [hext] at h <;> simp_all
      · intro h
        cases h
  · intro hnf
    have hstep : (∃ msg, scrapePttWeb doc userId
        = Except.error (ScrapeErr.parseFail msg)) ↔ extractTotal doc = none := by
      simp only [scrapePttWeb, hnf, Bool.false_eq_true, if_false]
      cases hext : extractTotal doc with
      | none => simp
      | some t => simp
    exact hstep.trans (extractTotal_eq_none_iff doc)
  · intro hnf total hext
    simp [scrapePttWeb, hnf, hext]

theorem scrapePttWeb_error_taxonomy_witness :
    titleSaysNotFound
        { titleText := some "amy 的留言", headlineText := some "全部留言, 共12則"
          boardEntries := [{ anchorText := some "Baseball", countText := some "3" }] }
      = false
    ∧ scrapePttWeb
        { titleText := some "amy 的留言", headlineText := some "全部留言, 共12則"
          boardEntries := [{ anchorText := some "Baseball", countText := some "3" }] }
        "amy"
      = Except.ok { boardComments := [("Baseball", 3)], totalComments := 12 } :=
  ⟨rfl,
    (scrapePttWeb_error_taxonomy
        { titleText := some "amy 的留言", headlineText := some "全部留言, 共12則"
          boardEntries := [{ anchorText := some "Baseball", countText := some "3" }] }
        "amy").2.2 rfl 12 rfl⟩

theorem reportLE_trans (sorting : SortingConfig) :
    ∀ (a b c : UserReportData), reportLE sorting a b → reportLE sorting b c →
      reportLE sorting a c := by
  intro a b c hab hbc
  unfold reportLE at *
  by_cases h : sorting.order == "desc" <;> simp [h] at * <;> omega

theorem reportLE_total (sorting : SortingConfig) :
    ∀ (a b : UserReportData), reportLE sorting a b || reportLE sorting b a := by
  intro a b
  unfold reportLE
  by_cases h : sorting.order == "desc" <;> simp [h] <;> omega

/-- C8: sorting orders the report list totally by the key selected by
`sortBy` (the two reserved keys select `articleComments` resp.
`totalComments`, any other string is a board name looked up with default 0),
descending when `order == "desc"` and ascending otherwise; it is a
permutation, it is stable (reports with equal keys keep their original
relative order), and sorting an already-sorted list changes nothing. -/
theorem sortReports_total_stable (sorting : SortingConfig)
    (l : List UserReportData) :
    (sortReports sorting l).Perm l
    ∧ (sorting.order = "desc" →
        (sortReports sorting l).Pairwise
          (fun a b => sortKey sorting b ≤ sortKey sorting a))
    ∧ (sorting.order ≠ "desc" →
        (sortReports sorting l).Pairwise
          (fun a b => sortKey sorting a ≤ sortKey sorting b))
    ∧ (∀ k, (sortReports sorting l).filter (fun r => sortKey sorting r == k)
        = l.filter (fun r => sortKey sorting r == k))
    ∧ sortReports sorting (sortReports sorting l) = sortReports sorting l
    ∧ (∀ r, sortKey { sortBy := "本文留言數", order := sorting.order } r
        = r.articleComments)
    ∧ (∀ r, sortKey { sortBy := "生涯總留言數", order := sorting.order } r
        = r.totalComments)
    ∧ (∀ r name, name ≠ "本文留言數" → name ≠ "生涯總留言數" →
        sortKey { sortBy := name, order := sorting.order } r
          = lookupD r.boardComments name) := by
  have htrans := reportLE_trans sorting
  have htotal := reportLE_total sorting
  refine ⟨List.mergeSort_perm l _, ?_, ?_, ?_, ?_, ?_, ?_, ?_⟩
  · intro hdesc
    have hb : (sorting.order == "desc") = true := by simp [hdesc]
    exact (List.sorted_mergeSort htrans htotal l).imp
      (fun {a b} h => by simpa [reportLE, hb] using h)
  · intro hdesc
    have hb : (sorting.order == "desc") = false := by simp [hdesc]
    exact (List.sorted_mergeSort htrans htotal l).imp
      (fun {a b} h => by simpa [reportLE, hb] using h)
  · intro k
    have hpair : (l.filter (fun r => sortKey sorting r == k)).Pairwise
        (fun a b => reportLE sorting a b) := by
      apply List.pairwise_of_forall_mem_list
      intro a ha b hb
      have ea : sortKey sorting a = k := by
        simpa using (List.mem_filter.mp ha).2
      have eb : sortKey sorting b = k := by
        simpa using (List.mem_filter.mp hb).2
      unfold reportLE
      by_cases h : sorting.order == "desc" <;> simp [h, ea, eb]
    have hsub : List.Sublist (l.filter (fun r => sortKey sorting r == k))
        (List.mergeSort l (reportLE sorting)) :=
      List.sublist_mergeSort htrans htotal hpair (List.filter_sublist l)
    have hself : (l.filter (fun r => sortKey sorting r == k)).filter
        (fun r => sortKey sorting r == k) = l.filter (fun r => sortKey sorting r == k) := by
      rw [List.filter_eq_self]
      intro a ha
      exact (List.mem_filter.mp ha).2
    have hsub2 : List.Sublist (l.filter (fun r => sortKey sorting r == k))
        ((List.mergeSort l (reportLE sorting)).filter (fun r => sortKey sorting r == k)) := by
      rw [← hself]
      exact hsub.filter _
    have hperm : ((List.mergeSort l (reportLE sorting)).filter
          (fun r => sortKey sorting r == k)).Perm
        (l.filter (fun r => sortKey sorting r == k)) :=
      (List.mergeSort_perm l (reportLE sorting)).filter _
    exact (hsub2.eq_of_length hperm.length_eq.symm).symm
  · exact List.mergeSort_of_sorted (List.sorted_mergeSort htrans htotal l)
  · intro r; rfl
  · intro r; rfl
  · intro r name h1 h2
    unfold sortKey
    split <;> simp_all

theorem sortReports_total_stable_witness :
    (sortReports { sortBy := "生涯總留言數", order := "desc" }
        [{ user := "a", articleComments := 1, boardComments := [], totalComments := 2 },
          { user := "b", articleComments := 3, boardComments := [], totalComments := 8 }]).Pairwise
      (fun a b => sortKey { sortBy := "生涯總留言數", order := "desc" } b
        ≤ sortKey { sortBy := "生涯總留言數", order := "desc" } a) :=
  (sortReports_total_stable { sortBy := "生涯總留言數", order := "desc" }
    [{ user := "a", articleComments := 1, boardComments := [], totalComments := 2 },
      { user := "b", articleComments := 3, boardComments := [], totalComments := 8 }]).2.1 rfl

theorem orderUsers_perm (users : List String) (order : List Nat)
    (horder : order.Perm (List.range users.length)) :
    (order.filterMap (fun i => users.get? i)).Perm users := by
  have h1 := horder.filterMap (fun i => users.get? i)
  rw [range_filterMap_getQ users] at h1
  exact h1

/-- C1: for every counts map (distinct keys) and every completion order of
the bounded fan-out, the orchestrator yields exactly one `UserReportData`
per user key — no user duplicated, no user dropped — whose
`articleComments` equals that user's count; and whenever the fetch for a
user fails, with any of the three error kinds, that user's report has empty
`boardComments` and `totalComments = 0`. -/
theorem enrich_covers_every_user
    (counts : List (String × Nat)) (targetBoards : List String)
    (fetch : String → List String → Except ScrapeErr PttWebData)
    (order : List Nat)
    (hkeys : (counts.map Prod.fst).Nodup)
    (horder : order.Perm (List.range counts.length)) :
    ((enrichReports counts targetBoards fetch order).map (fun r => r.user)).Perm
      (counts.map Prod.fst)
    ∧ (∀ u, u ∈ counts.map Prod.fst →
        ((enrichReports counts targetBoards fetch order).filter
          (fun r => r.user == u)).length = 1)
    ∧ (∀ r, r ∈ enrichReports counts targetBoards fetch order →
        r.articleComments = lookupD counts r.user
        ∧ (∀ e, fetch r.user targetBoards = Except.error e →
            r.boardComments = [] ∧ r.totalComments = 0)) := by
  have hmapuser : (enrichReports counts targetBoards fetch order).map (fun r => r.user)
      = order.filterMap (fun i => (counts.map Prod.fst).get? i) := by
    unfold enrichReports
    rw [List.map_map]
    have hcomp : ((fun r : UserReportData => r.user) ∘
        fun u => mkReport counts u (resolveFetch (fetch u targetBoards))) = id := by
      funext u
      simp [Function.comp, mkReport_user]
    rw [hcomp, List.map_id]
  have hperm0 : (order.filterMap (fun i => (counts.map Prod.fst).get? i)).Perm
      (counts.map Prod.fst) := by
    apply orderUsers_perm
    rwa [List.length_map]
  refine ⟨?_, ?_, ?_⟩
  · rw [hmapuser]
    exact hperm0
  · intro u hu
    have h1 : ((enrichReports counts targetBoards fetch order).filter
        (fun r => r.user == u)).length
        = List.count u ((enrichReports counts targetBoards fetch order).map
            (fun r => r.user)) := by
      rw [← List.countP_eq_length_filter, List.count, List.countP_map]
      rfl
    rw [h1, hmapuser, (hperm0.count_eq u)]
    exact List.count_eq_one_of_mem hkeys hu
  · intro r hr
    unfold enrichReports at hr
    obtain ⟨u, hu, hrel⟩ := List.mem_map.mp hr
    constructor
    · rw [← hrel, mkReport_user, mkReport_article]
    · intro e he
      have huser : r.user = u := by rw [← hrel, mkReport_user]
      rw [huser] at he
      have hres : resolveFetch (fetch u targetBoards) = none := by
        rw [he]
        exact resolveFetch_error e
      rw [← hrel, hres]
      exact ⟨rfl, rfl⟩

theorem enrich_covers_every_user_witness :
    ((enrichReports [("alice", 3), ("bob", 1)] [] demoFetch [1, 0]).map
        (fun r => r.user)).Perm ([("alice", 3), ("bob", 1)].map Prod.fst)
    ∧ (∀ u, u ∈ [("alice", 3), ("bob", 1)].map Prod.fst →
        ((enrichReports [("alice", 3), ("bob", 1)] [] demoFetch [1, 0]).filter
          (fun r => r.user == u)).length = 1)
    ∧ (∀ r, r ∈ enrichReports [("alice", 3), ("bob", 1)] [] demoFetch [1, 0] →
        r.articleComments = lookupD [("alice", 3), ("bob", 1)] r.user
        ∧ (∀ e, demoFetch r.user [] = Except.error e →
            r.boardComments = [] ∧ r.totalComments = 0)) :=
  enrich_covers_every_user [("alice", 3), ("bob", 1)] [] demoFetch [1, 0]
    (by decide) (by decide)

end PTT
